import Mathlib

/-!
# Verification of the voker Lambda runtime core

Shallow embedding of the voker repository (Go): the error/panic taxonomy,
the runtime-API transport client, the per-invocation execution pipeline
(`handleInvocation` / `callHandler` / `sendError`), the Lambda context
attachment (`NewContext` / `FromContext`), and the extension lifecycle
manager's shutdown sequence.

Go library calls (`encoding/json`, the HTTP round trip, `runtime.Callers`)
are abstracted as oracle parameters; everything the repository itself
computes is embedded faithfully from the source.
-/

namespace Voker

/-! ## String helpers mirroring Go `strings` operations used by the source -/

/-- Go `strings.HasPrefix` on character lists. -/
def listIsPrefix : List Char → List Char → Bool
  | [], _ => true
  | _ :: _, [] => false
  | a :: as, b :: bs => a = b && listIsPrefix as bs

/-- Go `strings.Contains` on character lists: does `pat` occur in `l`? -/
def listContainsSub (pat : List Char) : List Char → Bool
  | [] => pat.isEmpty
  | c :: rest => listIsPrefix pat (c :: rest) || listContainsSub pat rest

/-- Go `strings.Contains s pat`. -/
def strContains (s pat : String) : Bool :=
  listContainsSub pat.toList s.toList

/-- Go `strings.Count s "/"` restricted to single characters. -/
def countChar (s : String) (c : Char) : Nat :=
  s.toList.count c

/-- Split a character list on a separator character; always non-empty,
with the semantics of Go `strings.Split` (and `String.splitOn`) for a
one-character separator. -/
def splitOnChar (c : Char) : List Char → List (List Char)
  | [] => [[]]
  | x :: xs =>
    match splitOnChar c xs with
    | [] => [[x]]
    | r :: rs => if x = c then [] :: r :: rs else (x :: r) :: rs

/-- Go `strings.Split s (String.singleton c)`. -/
def strSplitOn (s : String) (c : Char) : List String :=
  (splitOnChar c s.toList).map String.mk

/-- `s[idx+1:]` for `idx = strings.LastIndex s "/"`, unchanged when there is
no slash (Go skips the slice when the index is negative; both cases coincide
with the last split component). -/
def afterLastSlash (s : String) : String :=
  (strSplitOn s '/').getLastD s

/-- `s[idx+1:]` for `idx = strings.LastIndex s "."`, unchanged when there is
no dot. -/
def afterLastDot (s : String) : String :=
  match strSplitOn s '.' with
  | [] => s
  | [_] => s
  | parts => parts.getLastD s

/-- `s[idx+1:]` for `idx = strings.Index s "."` (everything after the FIRST
dot), unchanged when there is no dot. -/
def afterFirstDot (s : String) : String :=
  match strSplitOn s '.' with
  | [] => s
  | [_] => s
  | _ :: rest => String.intercalate "." rest

/-! ## Error records (`ErrorResponse`, `StackFrame` from the source) -/

/-- `StackFrame` from the source: a single frame in a stack trace. -/
structure StackFrame where
  Path : String
  Line : Nat
  Label : String
deriving DecidableEq, Repr

/-- `ErrorResponse` from the source: a Lambda function error response.
The Go field `Type` (JSON `errorType`) is named `errType` here because
`Type` is a Lean keyword. -/
structure ErrorResponse where
  errType : String
  Message : String
  StackTrace : List StackFrame
deriving DecidableEq, Repr

/-! ## Failure and panic values as seen through Go reflection

A Go `error` interface value is modelled by what `reflect` and `fmt`
expose of it: whether the interface is nil, whether the dynamic type is a
pointer, the type's `Name()`, the pointee type's `Name()` for pointers,
and the `Error()` message. -/

/-- A Go `error` value as the classifier `getErrorType` observes it.
`nilErr` covers both `err == nil` and `reflect.TypeOf(err) == nil`
(a nil interface carries no type information at all). -/
inductive ErrVal where
  | nilErr
  | typed (ptr : Bool) (name : String) (elemName : String) (msg : String)
deriving DecidableEq, Repr

/-- `err.Error()`; never called on a nil interface by the source. -/
def ErrVal.errMsg : ErrVal → String
  | .nilErr => ""
  | .typed _ _ _ m => m

/-- The `typeName` computed at the top of `getErrorType`:
`t.Name()`, replaced by `t.Elem().Name()` whenever the kind is pointer. -/
def ErrVal.typeName : ErrVal → String
  | .nilErr => ""
  | .typed ptr name elemName _ => if ptr then elemName else name

/-- `getErrorType` from the source: error type in AWS `Category.Reason`
format. -/
def getErrorType (err : ErrVal) : String :=
  match err with
  | .nilErr => "Runtime.Unknown"
  | .typed _ _ _ _ =>
    let typeName := err.typeName
    if typeName ≠ "" then
      if typeName = "errorString" ∨ typeName = "errors" then "Runtime.HandlerError"
      else if strContains typeName "wrap" then "Runtime.HandlerError"
      else "Runtime." ++ typeName
    else "Runtime.HandlerError"

/-- `newErrorResponse` from the source: an `ErrorResponse` from a regular
error. It never sets a stack trace. -/
def newErrorResponse (err : ErrVal) : ErrorResponse :=
  { errType := getErrorType err, Message := err.errMsg, StackTrace := [] }

/-- A Go panic value as the classifier `getPanicType` observes it:
nil, or a value with pointer flag, `reflect` names, the `%T` type string
and the `%v` printed form. -/
inductive PanicVal where
  | nilPanic
  | typed (ptr : Bool) (name : String) (elemName : String)
      (typeStr : String) (printed : String)
deriving DecidableEq, Repr

/-- `fmt.Sprintf "%v" panicValue`. -/
def PanicVal.printedForm : PanicVal → String
  | .nilPanic => "<nil>"
  | .typed _ _ _ _ p => p

/-- `getPanicType` from the source: panic type in AWS recommended format. -/
def getPanicType (panicValue : PanicVal) : String :=
  match panicValue with
  | .nilPanic => "Runtime.Panic"
  | .typed ptr name elemName typeStr _ =>
    let typeName := if ptr && elemName ≠ "" then elemName else name
    if typeName ≠ "" then "Runtime.Panic." ++ typeName
    else
      let ts := afterLastDot typeStr
      if ts ≠ "" then "Runtime.Panic." ++ ts
      else "Runtime.Panic"

/-! ## Stack capture (`captureStackTrace`, `formatFrame` from the source)

`runtime.Callers` is abstracted by the goroutine's raw frame list,
innermost first, starting at the frame of the capture routine itself
(the frame `skip = 0` would identify). -/

/-- A raw `runtime.Frame`: file, line, fully qualified function name. -/
structure RawFrame where
  file : String
  line : Nat
  function : String
deriving DecidableEq, Repr

/-- `formatFrame` from the source: converts a `runtime.Frame` to a
`StackFrame`, stripping GOPATH/module path components and package
qualifiers. -/
def formatFrame (frame : RawFrame) : StackFrame :=
  let slashCount := countChar frame.function '/'
  let path :=
    if slashCount > 0 then
      let parts := strSplitOn frame.file '/'
      if parts.length > slashCount + 1 then
        String.intercalate "/" (parts.drop (parts.length - (slashCount + 1)))
      else frame.file
    else frame.file
  let label := afterFirstDot (afterLastSlash frame.function)
  { Path := path, Line := frame.line, Label := label }

/-- `maxFrames = 32` in `captureStackTrace`. -/
def maxFrames : Nat := 32

/-- `framesToSkip = 4` in `captureStackTrace`
(captureStackTrace -> newPanicResponse -> recover -> handler). -/
def framesToSkip : Nat := 4

/-- `captureStackTrace` from the source, over the raw goroutine stack
(innermost first, head = the capture routine's own frame): skip the
pipeline's own frames, record at most `maxFrames`, format each.
When nothing remains the source returns the empty slice. -/
def captureStackTrace (callers : List RawFrame) : List StackFrame :=
  ((callers.drop framesToSkip).take maxFrames).map formatFrame

/-- `newPanicResponse` from the source: an `ErrorResponse` from a panic,
with the captured stack trace attached. -/
def newPanicResponse (panicValue : PanicVal) (callers : List RawFrame) :
    ErrorResponse :=
  { Message := panicValue.printedForm
    errType := getPanicType panicValue
    StackTrace := captureStackTrace callers }

/-! ## Lambda context data (`context.go`, `src/unnamed/part_000`) -/

/-- `CognitoIdentity` from the source. -/
structure CognitoIdentity where
  cognitoIdentityID : String := ""
  cognitoIdentityPoolID : String := ""
deriving DecidableEq, Repr

/-- `ClientApplication` from the source. -/
structure ClientApplication where
  installationID : String := ""
  appTitle : String := ""
  appVersionCode : String := ""
  appPackageName : String := ""
deriving DecidableEq, Repr

/-- `ClientContext` from the source (maps modelled as association lists). -/
structure ClientContext where
  client : ClientApplication := {}
  env : List (String × String) := []
  custom : List (String × String) := []
deriving DecidableEq, Repr

/-- `LambdaContext` from the source: metadata for a Lambda invocation. -/
structure LambdaContext where
  AwsRequestID : String := ""
  InvokedFunctionArn : String := ""
  Identity : CognitoIdentity := {}
  ClientContext : ClientContext := {}
deriving DecidableEq, Repr

/-- Context keys: the package-private `lambdaContextKey` singleton plus
arbitrary foreign keys other packages may install. -/
inductive CtxKey where
  | lambdaContextKey
  | other (n : Nat)
deriving DecidableEq, Repr

/-- Context values: a `*LambdaContext` or a foreign value of another
dynamic type (the type assertion in `FromContext` distinguishes them). -/
inductive CtxVal where
  | lambdaCtx (lc : LambdaContext)
  | other (n : Nat)
deriving DecidableEq, Repr

/-- A Go `context.Context` as built by this program: `context.Background`,
`context.WithValue` and `context.WithDeadline` layers. -/
inductive GoContext where
  | background
  | withValue (parent : GoContext) (key : CtxKey) (val : CtxVal)
  | withDeadline (parent : GoContext) (deadlineMs : Int)
deriving DecidableEq, Repr

/-- `ctx.Value key`: walk up the parent chain to the innermost layer
holding the key. -/
def GoContext.value : GoContext → CtxKey → Option CtxVal
  | .background, _ => none
  | .withValue parent k v, key => if key = k then some v else parent.value key
  | .withDeadline parent _, key => parent.value key

/-- `NewContext` from the source: attach the `LambdaContext` under the
package-private key. -/
def NewContext (parent : GoContext) (lc : LambdaContext) : GoContext :=
  .withValue parent .lambdaContextKey (.lambdaCtx lc)

/-- `FromContext` from the source: `lc, ok := ctx.Value(key).(*LambdaContext)`.
The failed type assertion (absent key or foreign value) yields `(none, false)`
(a nil pointer and `ok = false` in Go). -/
def FromContext (ctx : GoContext) : Option LambdaContext × Bool :=
  match ctx.value .lambdaContextKey with
  | some (.lambdaCtx lc) => (some lc, true)
  | _ => (none, false)

/-! ## Runtime-API transport (`src/unnamed/part_003`)

The HTTP round trip is abstracted by its observable outcome: a network
error, or a status code with response headers and body. Header `Get`
returns the empty string for an absent header, so headers are plain
strings with `""` meaning absent. -/

/-- The response headers the runtime API sets on `next`. -/
structure HTTPHeaders where
  requestID : String := ""
  deadlineMS : String := ""
  traceID : String := ""
  cognitoIdentity : String := ""
  clientContext : String := ""
  functionARN : String := ""
deriving DecidableEq, Repr

/-- Outcome of `httpClient.Do` for the GET to `/next`. -/
inductive DoResult where
  | netErr (msg : String)
  | resp (status : Nat) (headers : HTTPHeaders) (body : String)
deriving DecidableEq, Repr

/-- `invocation` from the source (the `client` back-pointer is implicit). -/
structure Invocation where
  requestID : String
  payload : String
  headers : HTTPHeaders
deriving DecidableEq, Repr

/-- `runtimeAPIVersion = "2018-06-01"`; base URL built by `newRuntimeClient`. -/
def runtimeBaseURL (runtimeAPI : String) : String :=
  "http://" ++ runtimeAPI ++ "/2018-06-01/runtime/invocation/"

/-- `runtimeClient.next` from the source: fails on a network error, on any
status other than 200, or on a body read failure; otherwise returns the
invocation with the request id header, the raw body as payload, and all
response headers. -/
def runtimeClient.next (doResult : DoResult) (readOk : Bool) :
    Except String Invocation :=
  match doResult with
  | .netErr m => .error ("failed to get next invocation: " ++ m)
  | .resp status headers body =>
    if status ≠ 200 then
      .error ("unexpected status code from runtime API: " ++ toString status)
    else if !readOk then
      .error "failed to read invocation payload"
    else
      .ok { requestID := headers.requestID, payload := body, headers := headers }

/-- Observable outcome of `runtimeClient.post`: the returned error (if any)
and whether a drain failure was logged. -/
structure PostOutcome where
  result : Except String Unit
  drainErrorLogged : Bool
deriving Repr

/-- `runtimeClient.post` from the source, as a function of the round-trip
outcome (`none` = network error, `some status` = response received) and
whether draining the response body succeeded. The body is drained only
after the 202 check; a drain failure is logged and the post still
returns nil. -/
def runtimeClient.post (doStatus : Option Nat) (drainOk : Bool) : PostOutcome :=
  match doStatus with
  | none => { result := .error "failed to POST to runtime API", drainErrorLogged := false }
  | some status =>
    if status ≠ 202 then
      { result := .error ("unexpected status code from runtime API: " ++ toString status)
        drainErrorLogged := false }
    else
      { result := .ok (), drainErrorLogged := !drainOk }

/-! ## Deadline parsing (`parseDeadline` in `voker.go`) -/

/-- One decimal digit. -/
def decDigit (c : Char) : Option Nat :=
  if '0' ≤ c ∧ c ≤ '9' then some (c.toNat - '0'.toNat) else none

/-- Accumulate a decimal digit string into a natural number; `none` on any
non-digit. -/
def decDigitsAux : List Char → Nat → Option Nat
  | [], acc => some acc
  | c :: rest, acc =>
    match decDigit c with
    | none => none
    | some d => decDigitsAux rest (acc * 10 + d)

/-- `strconv.ParseInt s 10 64`: optional sign, non-empty decimal digits,
int64 range check (an out-of-range value is an error as well). -/
def goParseInt64 (s : String) : Except String Int :=
  let chars := s.toList
  let signSplit : Bool × List Char :=
    match chars with
    | '+' :: rest => (false, rest)
    | '-' :: rest => (true, rest)
    | _ => (false, chars)
  match signSplit.2 with
  | [] => .error ("strconv.ParseInt: parsing \"" ++ s ++ "\": invalid syntax")
  | digits =>
    match decDigitsAux digits 0 with
    | none => .error ("strconv.ParseInt: parsing \"" ++ s ++ "\": invalid syntax")
    | some n =>
      let v : Int := if signSplit.1 then -(n : Int) else (n : Int)
      if -(2 ^ 63) ≤ v ∧ v ≤ 2 ^ 63 - 1 then .ok v
      else .error ("strconv.ParseInt: parsing \"" ++ s ++ "\": value out of range")

/-- The error produced by `fmt.Errorf("...: %w", err)`: a `*fmt.wrapError`,
whose pointee type name is `wrapError`. -/
def wrapGoError (msg : String) : ErrVal :=
  .typed true "" "wrapError" msg

/-- `parseDeadline` from the source: parse epoch milliseconds via
`strconv.ParseInt`, wrapping a parse failure; `time.UnixMilli` keeps the
millisecond count as the absolute deadline. -/
def parseDeadline (deadlineMS : String) : Except ErrVal Int :=
  match goParseInt64 deadlineMS with
  | .error m => .error (wrapGoError ("failed to parse deadline: " ++ m))
  | .ok ms => .ok ms

/-! ## Error dispatch (`sendError` in `voker.go`) -/

/-- How one pipeline pass ends, as the Go `error` returned by
`handleInvocation` distinguishes outcomes for the outer loop:
`handlerPanicked` is the sentinel `errHandlerPanicked`; the others wrap
transport failures; `.ok` lets the loop fetch the next invocation. -/
inductive PassFatal where
  | nextFailed (msg : String)
  | errorPostFailed (msg : String)
  | successPostFailed (msg : String)
  | handlerPanicked
deriving DecidableEq, Repr

/-- The `err` argument of `sendError`: either already a `*ErrorResponse`
(from `callHandler`) or an ordinary Go error to be classified. -/
inductive SendErrArg where
  | resp (e : ErrorResponse)
  | goErr (e : ErrVal)
deriving DecidableEq, Repr

/-- The type switch at the top of `sendError`. -/
def SendErrArg.toErrResp : SendErrArg → ErrorResponse
  | .resp e => e
  | .goErr e => newErrorResponse e

/-- The fixed fallback body `sendError` builds with `fmt.Appendf` when
marshalling the error record itself fails. -/
def fallbackErrorJSON (marshalErrMsg : String) : String :=
  "\x7b\"Message\":\"failed to marshal error: " ++ marshalErrMsg ++
    "\",\"Type\":\"Runtime.MarshalError\"\x7d"

/-- Observable outcome of `sendError`: the record it reported, the POST
requests it performed (URL, body), and the Go error it returned. -/
structure SendErrorResult where
  errResp : ErrorResponse
  requests : List (String × String)
  outcome : Except PassFatal Unit
deriving Repr

/-- `sendError` from the source. `marshalErrResp` abstracts
`json.Marshal` on the record; `postStatus`/`drainOk` abstract the HTTP
round trip of `inv.failure`. The failure POST is attempted exactly once
on every path; a marshal failure substitutes the fallback body. After a
successful POST, a record with stack frames escalates to
`errHandlerPanicked`. -/
def sendError (base : String) (inv : Invocation) (arg : SendErrArg)
    (marshalErrResp : ErrorResponse → Except String String)
    (postStatus : Option Nat) (drainOk : Bool) : SendErrorResult :=
  let errResp := arg.toErrResp
  let errorJSON :=
    match marshalErrResp errResp with
    | .ok j => j
    | .error m => fallbackErrorJSON m
  let url := base ++ inv.requestID ++ "/error"
  let postRes := runtimeClient.post postStatus drainOk
  let outcome : Except PassFatal Unit :=
    match postRes.result with
    | .error m => .error (.errorPostFailed ("failed to send error response: " ++ m))
    | .ok _ =>
      if errResp.StackTrace.length > 0 then .error .handlerPanicked
      else .ok ()
  { errResp := errResp, requests := [(url, errorJSON)], outcome := outcome }

/-! ## Guarded decode-invoke-encode (`callHandler` in `voker.go`) -/

/-- Outcome of evaluating the user handler: a returned value, a returned
error, or a panic (with the goroutine's raw stack at recovery time). -/
inductive HandlerRes (TOut : Type) where
  | ok (output : TOut)
  | err (e : ErrVal)
  | panics (v : PanicVal) (callers : List RawFrame)

/-- Result of `callHandler`: the `(responseBytes, responseErr)` pair plus
instrumentation recording whether the handler body actually ran and
whether the error came from a contained panic. -/
structure CallOut where
  response : Option String
  errorResp : Option ErrorResponse
  handlerInvoked : Bool
  panicked : Bool
deriving Repr

/-- `callHandler` from the source. `unmarshalIn`/`marshalOut` abstract
`encoding/json`; the deferred `recover` is reached only by handler panics
(json never panics on these inputs). Decode failure yields the
`Runtime.UnmarshalError` record without invoking the handler; encode
failure yields `Runtime.MarshalError`; a recovered panic yields
`newPanicResponse`. -/
def callHandler {TIn TOut : Type}
    (unmarshalIn : String → Except String TIn)
    (marshalOut : TOut → Except String String)
    (payload : String)
    (handler : TIn → HandlerRes TOut) : CallOut :=
  match unmarshalIn payload with
  | .error m =>
    { response := none
      errorResp := some
        { errType := "Runtime.UnmarshalError"
          Message := "failed to unmarshal input: " ++ m
          StackTrace := [] }
      handlerInvoked := false
      panicked := false }
  | .ok input =>
    match handler input with
    | .err e =>
      { response := none, errorResp := some (newErrorResponse e)
        handlerInvoked := true, panicked := false }
    | .panics v callers =>
      { response := none, errorResp := some (newPanicResponse v callers)
        handlerInvoked := true, panicked := true }
    | .ok output =>
      match marshalOut output with
      | .error m =>
        { response := none
          errorResp := some
            { errType := "Runtime.MarshalError"
              Message := "failed to marshal output: " ++ m
              StackTrace := [] }
          handlerInvoked := true
          panicked := false }
      | .ok bytes =>
        { response := some bytes, errorResp := none
          handlerInvoked := true, panicked := false }

/-! ## One pipeline pass (`handleInvocation` in `voker.go`) -/

/-- The stages of one pipeline pass, in the order they execute.
`tracePropagation` is the `options.enableTraceID` block,
`contextAssembly` is the `LambdaContext` build including the optional
identity/client-context decodes and `NewContext`. -/
inductive Step where
  | fetch
  | tracePropagation
  | deadlineParse
  | contextAssembly
  | invokeHandler
  | dispatchError
  | dispatchSuccess
deriving DecidableEq, Repr

/-- Everything one `handleInvocation` call consumes from its environment:
the transport outcome for `next`, the option toggles, the initial value
of the process-wide `_X_AMZN_TRACE_ID` slot, the `encoding/json` oracles,
the handler, and the transport outcomes of the report POSTs. -/
structure PassEnv (TIn TOut : Type) where
  nextDo : DoResult
  nextReadOk : Bool := true
  enableTraceID : Bool := false
  initialTraceSlot : Option String := none
  unmarshalCognito : String → Except String CognitoIdentity
  unmarshalClientCtx : String → Except String ClientContext
  unmarshalIn : String → Except String TIn
  handler : GoContext → TIn → HandlerRes TOut
  marshalOut : TOut → Except String String
  marshalErrResp : ErrorResponse → Except String String
  errorPostStatus : Option Nat := some 202
  errorDrainOk : Bool := true
  successPostStatus : Option Nat := some 202
  successDrainOk : Bool := true

/-- Observable outcome of one pipeline pass. -/
structure PassResult where
  outcome : Except PassFatal Unit
  traceSlot : Option String
  reported : Option ErrorResponse
  errorRequests : List (String × String)
  successRequests : List (String × String)
  handlerInvoked : Bool
  panicOrigin : Bool
  steps : List Step
deriving Repr

/-- `handleInvocation` from the source, one pass end to end:
fetch, trace propagation (when enabled), deadline derivation, context
assembly (with optional identity/client-context decodes), guarded
decode-invoke-encode, and dispatch. Every failure after a successful
fetch goes through `sendError`. -/
def handleInvocation {TIn TOut : Type} (base : String)
    (env : PassEnv TIn TOut) : PassResult :=
  match runtimeClient.next env.nextDo env.nextReadOk with
  | .error m =>
    { outcome := .error (.nextFailed ("failed to get next invocation: " ++ m))
      traceSlot := env.initialTraceSlot, reported := none
      errorRequests := [], successRequests := []
      handlerInvoked := false, panicOrigin := false, steps := [Step.fetch] }
  | .ok inv =>
    -- the enableTraceID block runs immediately after the fetch
    let traceSlot :=
      if env.enableTraceID && inv.headers.traceID ≠ "" then some inv.headers.traceID
      else env.initialTraceSlot
    let steps0 : List Step :=
      Step.fetch :: (if env.enableTraceID then [Step.tracePropagation] else [])
    match parseDeadline inv.headers.deadlineMS with
    | .error e =>
      let send := sendError base inv (.goErr e) env.marshalErrResp
        env.errorPostStatus env.errorDrainOk
      { outcome := send.outcome, traceSlot := traceSlot
        reported := some send.errResp
        errorRequests := send.requests, successRequests := []
        handlerInvoked := false, panicOrigin := false
        steps := steps0 ++ [Step.deadlineParse, Step.dispatchError] }
    | .ok deadlineMs =>
      let ctx0 := GoContext.withDeadline .background deadlineMs
      let lc0 : LambdaContext :=
        { AwsRequestID := inv.requestID
          InvokedFunctionArn := inv.headers.functionARN }
      let cognitoRes : Except String CognitoIdentity :=
        if inv.headers.cognitoIdentity ≠ "" then
          env.unmarshalCognito inv.headers.cognitoIdentity
        else .ok {}
      match cognitoRes with
      | .error m =>
        let send := sendError base inv
          (.goErr (wrapGoError ("failed to parse cognito identity: " ++ m)))
          env.marshalErrResp env.errorPostStatus env.errorDrainOk
        { outcome := send.outcome, traceSlot := traceSlot
          reported := some send.errResp
          errorRequests := send.requests, successRequests := []
          handlerInvoked := false, panicOrigin := false
          steps := steps0 ++ [Step.deadlineParse, Step.contextAssembly, Step.dispatchError] }
      | .ok identity =>
        let clientRes : Except String ClientContext :=
          if inv.headers.clientContext ≠ "" then
            env.unmarshalClientCtx inv.headers.clientContext
          else .ok {}
        match clientRes with
        | .error m =>
          let send := sendError base inv
            (.goErr (wrapGoError ("failed to parse client context: " ++ m)))
            env.marshalErrResp env.errorPostStatus env.errorDrainOk
          { outcome := send.outcome, traceSlot := traceSlot
            reported := some send.errResp
            errorRequests := send.requests, successRequests := []
            handlerInvoked := false, panicOrigin := false
            steps := steps0 ++ [Step.deadlineParse, Step.contextAssembly, Step.dispatchError] }
        | .ok clientCtx =>
          let lc : LambdaContext := { lc0 with Identity := identity, ClientContext := clientCtx }
          let ctx := NewContext ctx0 lc
          let call := callHandler env.unmarshalIn env.marshalOut inv.payload (env.handler ctx)
          let steps1 := steps0 ++ [Step.deadlineParse, Step.contextAssembly, Step.invokeHandler]
          match call.errorResp with
          | some record =>
            let send := sendError base inv (.resp record) env.marshalErrResp
              env.errorPostStatus env.errorDrainOk
            { outcome := send.outcome, traceSlot := traceSlot
              reported := some send.errResp
              errorRequests := send.requests, successRequests := []
              handlerInvoked := call.handlerInvoked, panicOrigin := call.panicked
              steps := steps1 ++ [Step.dispatchError] }
          | none =>
            let bytes := (call.response).getD ""
            let post := runtimeClient.post env.successPostStatus env.successDrainOk
            let outcome : Except PassFatal Unit :=
              match post.result with
              | .error m => .error (.successPostFailed ("failed to send success response: " ++ m))
              | .ok _ => .ok ()
            { outcome := outcome, traceSlot := traceSlot
              reported := none
              errorRequests := []
              successRequests := [(base ++ inv.requestID ++ "/response", bytes)]
              handlerInvoked := call.handlerInvoked, panicOrigin := false
              steps := steps1 ++ [Step.dispatchSuccess] }

/-! ## Extension lifecycle manager shutdown (`extension.go`)

`shutdown` is sequential code: build a 500ms timeout context, close the
shared `done` channel, call each registered extension's `OnSIGTERM` hook
in registration order, then wait for all event loops. It is modelled as
the trace of events it performs, in execution order; list position is
temporal order. -/

/-- `InternalExtension` from the source, keeping only which optional
hooks are supplied (the hook bodies are external code). -/
structure InternalExtension where
  name : String
  hasOnInit : Bool := false
  hasOnInvoke : Bool := false
  hasOnSIGTERM : Bool := false
deriving DecidableEq, Repr

/-- `sigtermContextDeadline = 500 * time.Millisecond`, in milliseconds. -/
def sigtermContextDeadline : Nat := 500

/-- The events `shutdown` performs: raising the shared done signal,
invoking the SIGTERM hook of the extension at a registration index with
the deadline of the context it receives, and returning after
`wg.Wait()`. -/
inductive ShutdownEvent where
  | closeDone
  | sigtermHook (extIdx : Nat) (ctxDeadline : Nat)
  | waitReturn
deriving DecidableEq, Repr

/-- Is this event a SIGTERM-hook invocation? -/
def ShutdownEvent.isHook : ShutdownEvent → Bool
  | .sigtermHook _ _ => true
  | _ => false

/-- Registration index carried by a hook event (0 otherwise). -/
def ShutdownEvent.hookIdx : ShutdownEvent → Nat
  | .sigtermHook i _ => i
  | _ => 0

/-- The `for _, ext := range m.extensions` loop in `shutdown`: one hook
event per extension that supplies `OnSIGTERM`, in registration order,
each receiving the same timeout context. -/
def sigtermHookEvents : List InternalExtension → Nat → Nat → List ShutdownEvent
  | [], _, _ => []
  | ext :: rest, i, dl =>
    (if ext.hasOnSIGTERM then [ShutdownEvent.sigtermHook i dl] else []) ++
      sigtermHookEvents rest (i + 1) dl

/-- `extensionManager.shutdown` from the source, as the trace of its
events. `sigTime` is the absolute time (ms) at which the termination
signal is handled; the timeout context is created at that instant, so
its deadline is `sigTime + 500`. -/
def shutdownTrace (exts : List InternalExtension) (sigTime : Nat) :
    List ShutdownEvent :=
  ShutdownEvent.closeDone ::
    sigtermHookEvents exts 0 (sigTime + sigtermContextDeadline) ++
      [ShutdownEvent.waitReturn]

/-! ## Helper lemmas -/

/-- Did this `Except` succeed? -/
def exceptIsOk {ε α : Type} : Except ε α → Bool
  | .ok _ => true
  | .error _ => false

/-- The captured stack is non-empty exactly when the raw goroutine stack
is deeper than the skipped pipeline frames. -/
theorem captureStackTrace_ne_nil_iff (callers : List RawFrame) :
    captureStackTrace callers ≠ [] ↔ framesToSkip < callers.length := by
  unfold captureStackTrace
  constructor
  · intro h
    by_contra hle
    push_neg at hle
    have : callers.drop framesToSkip = [] := List.drop_eq_nil_of_le hle
    simp [this] at h
  · intro h hnil
    have hne : callers.drop framesToSkip ≠ [] := by
      intro hd
      have := List.drop_eq_nil_iff.mp hd
      omega
    rcases List.exists_cons_of_ne_nil hne with ⟨a, t, ht⟩
    simp [ht, maxFrames] at hnil

/-- `newErrorResponse` never attaches stack frames. -/
theorem newErrorResponse_stackTrace (e : ErrVal) :
    (newErrorResponse e).StackTrace = [] := rfl

/-! ## Claim theorems -/

/-- C10: round-trip — attaching a `LambdaContext` with `NewContext` and
extracting it with `FromContext` yields exactly the attached value with
flag `true`, for every parent context; `FromContext` on a context with
no value attached under the lambda-context key yields flag `false`. -/
theorem lambda_context_roundtrip :
    (∀ (parent : GoContext) (lc : LambdaContext),
      FromContext (NewContext parent lc) = (some lc, true)) ∧
    (∀ ctx : GoContext, ctx.value .lambdaContextKey = none →
      FromContext ctx = (none, false)) := by
  constructor
  · intro parent lc
    simp [FromContext, NewContext, GoContext.value]
  · intro ctx h
    simp [FromContext, h]

/-- Witness for C10 at a concrete parent and `LambdaContext`, and at the
empty `context.Background`. -/
theorem lambda_context_roundtrip_witness :
    FromContext (NewContext .background { AwsRequestID := "req-1" }) =
      (some { AwsRequestID := "req-1" }, true) ∧
    FromContext .background = (none, false) :=
  ⟨lambda_context_roundtrip.1 .background _,
   lambda_context_roundtrip.2 .background rfl⟩

/-- C3: `next` (fetchNext) succeeds exactly on status 200 and fails with a
transport error otherwise; `post` (the shared transport of `reportSuccess`
and `reportFailure`) succeeds exactly on status 202 and fails otherwise;
and a drain failure of the report response body is logged but leaves the
report's outcome successful. -/
theorem transport_status_codes (status : Nat) (headers : HTTPHeaders)
    (body : String) (drainOk : Bool) :
    (exceptIsOk (runtimeClient.next (.resp status headers body) true) = true ↔
      status = 200) ∧
    (exceptIsOk (runtimeClient.post (some status) drainOk).result = true ↔
      status = 202) ∧
    (runtimeClient.post (some 202) drainOk).result = .ok () ∧
    (runtimeClient.post (some 202) drainOk).drainErrorLogged = !drainOk := by
  refine ⟨?_, ?_, ?_, ?_⟩
  · by_cases h : status = 200 <;> simp [runtimeClient.next, h, exceptIsOk]
  · by_cases h : status = 202 <;> simp [runtimeClient.post, h, exceptIsOk]
  · simp [runtimeClient.post]
  · simp [runtimeClient.post]

/-- Witness for C3 at concrete statuses: a 200 fetch, a post receiving a
non-accepted status, and an accepted post whose body drain fails. -/
theorem transport_status_codes_witness :
    (exceptIsOk (runtimeClient.next (.resp 200 {} "body") true) = true ↔
      (200 : Nat) = 200) ∧
    (exceptIsOk (runtimeClient.post (some 200) false).result = true ↔
      (200 : Nat) = 202) ∧
    (runtimeClient.post (some 202) false).result = .ok () ∧
    (runtimeClient.post (some 202) false).drainErrorLogged = !false :=
  transport_status_codes 200 {} "body" false

/-- Unfolding of `getErrorType` on a typed (non-nil) failure value. -/
theorem getErrorType_typed (ptr : Bool) (name elemName msg : String) :
    getErrorType (.typed ptr name elemName msg) =
      (if ErrVal.typeName (.typed ptr name elemName msg) ≠ "" then
        if ErrVal.typeName (.typed ptr name elemName msg) = "errorString" ∨
            ErrVal.typeName (.typed ptr name elemName msg) = "errors" then
          "Runtime.HandlerError"
        else if strContains (ErrVal.typeName (.typed ptr name elemName msg)) "wrap" then
          "Runtime.HandlerError"
        else "Runtime." ++ ErrVal.typeName (.typed ptr name elemName msg)
      else "Runtime.HandlerError") := rfl

/-- C2: the failure classifier maps the known standard plain-string error
shapes (`errorString`, `errors`) to `Runtime.HandlerError`; any type name
containing the wrapping marker `wrap` to `Runtime.HandlerError`;
otherwise a non-empty type name to `Runtime.<TypeName>`; and a value
without type information (nil interface) to `Runtime.Unknown`. -/
theorem getErrorType_taxonomy (e : ErrVal) :
    (e = .nilErr → getErrorType e = "Runtime.Unknown") ∧
    (e.typeName = "errorString" ∨ e.typeName = "errors" →
      getErrorType e = "Runtime.HandlerError") ∧
    (strContains e.typeName "wrap" = true →
      getErrorType e = "Runtime.HandlerError") ∧
    (e.typeName ≠ "" → e.typeName ≠ "errorString" → e.typeName ≠ "errors" →
      strContains e.typeName "wrap" = false →
      getErrorType e = "Runtime." ++ e.typeName) := by
  cases e with
  | nilErr =>
    refine ⟨fun _ => rfl, ?_, ?_, ?_⟩
    · rintro (h | h) <;> exact absurd h (by decide)
    · intro h; exact absurd h (by decide)
    · intro h; exact absurd rfl h
  | typed ptr name elemName msg =>
    refine ⟨?_, ?_, ?_, ?_⟩
    · intro h; exact ErrVal.noConfusion h
    · intro h
      have hne : ErrVal.typeName (.typed ptr name elemName msg) ≠ "" := by
        rcases h with h | h <;> rw [h] <;> decide
      rw [getErrorType_typed, if_pos hne, if_pos h]
    · intro h
      have hne : ErrVal.typeName (.typed ptr name elemName msg) ≠ "" := by
        intro hnil
        rw [hnil] at h
        exact absurd h (by decide)
      by_cases hk : ErrVal.typeName (.typed ptr name elemName msg) = "errorString" ∨
          ErrVal.typeName (.typed ptr name elemName msg) = "errors"
      · rw [getErrorType_typed, if_pos hne, if_pos hk]
      · rw [getErrorType_typed, if_pos hne, if_neg hk, if_pos h]
    · intro hne h1 h2 hw
      have hk : ¬(ErrVal.typeName (.typed ptr name elemName msg) = "errorString" ∨
          ErrVal.typeName (.typed ptr name elemName msg) = "errors") := by
        rintro (h | h)
        · exact h1 h
        · exact h2 h
      rw [getErrorType_typed, if_pos hne, if_neg hk, if_neg (by rw [hw]; decide)]

/-- Witness for C2: each clause at a concrete failure value observed in
the repository's own tests (`errors.New`, a wrapped error, a custom
error type, and the nil interface). -/
theorem getErrorType_taxonomy_witness :
    getErrorType .nilErr = "Runtime.Unknown" ∧
    getErrorType (.typed false "errorString" "" "test error") = "Runtime.HandlerError" ∧
    getErrorType (.typed true "" "wrapError" "wrapped") = "Runtime.HandlerError" ∧
    getErrorType (.typed false "customError" "" "custom error") = "Runtime.customError" :=
  ⟨(getErrorType_taxonomy _).1 rfl,
   (getErrorType_taxonomy _).2.1 (Or.inl rfl),
   (getErrorType_taxonomy _).2.2.1 rfl,
   (getErrorType_taxonomy _).2.2.2 (by decide) (by decide) (by decide) rfl⟩

/-- C5 counterexample: the claim states the panic tag is exactly
`Runtime.Panic` whenever the panic value is anonymous (has no type name).
The panic value `[]string{"hey"}` is non-nil and its dynamic type
`[]string` is unnamed (`reflect.Type.Name()` is empty, not a pointer),
yet `getPanicType` falls back to the `%T` type string and produces
`Runtime.Panic.[]string`, not `Runtime.Panic`. -/
theorem getPanicType_anonymous_counterexample :
    getPanicType (.typed false "" "" "[]string" "[hey]") = "Runtime.Panic.[]string" ∧
    getPanicType (.typed false "" "" "[]string" "[hey]") ≠ "Runtime.Panic" :=
  ⟨rfl, by decide⟩

/-- Unfolding of `getPanicType` on a typed (non-nil) panic value. -/
theorem getPanicType_typed (ptr : Bool) (name elemName typeStr printed : String) :
    getPanicType (.typed ptr name elemName typeStr printed) =
      (if (if ptr && elemName ≠ "" then elemName else name) ≠ "" then
        "Runtime.Panic." ++ (if ptr && elemName ≠ "" then elemName else name)
      else if afterLastDot typeStr ≠ "" then
        "Runtime.Panic." ++ afterLastDot typeStr
      else "Runtime.Panic") := rfl

/-- C5 (amended): the panic classifier yields `Runtime.Panic.<TypeName>`
when the value has a named dynamic type (a pointer uses the pointee's
name when that is non-empty); for a non-nil value of an unnamed type it
yields `Runtime.Panic.<S>` where `S` is the `%T` type string with
everything up to its last dot removed, whenever `S` is non-empty; and it
yields exactly `Runtime.Panic` when the value is nil (or `S` is empty). -/
theorem getPanicType_classification (ptr : Bool)
    (name elemName typeStr printed : String) :
    getPanicType .nilPanic = "Runtime.Panic" ∧
    ((if ptr && elemName ≠ "" then elemName else name) ≠ "" →
      getPanicType (.typed ptr name elemName typeStr printed) =
        "Runtime.Panic." ++ (if ptr && elemName ≠ "" then elemName else name)) ∧
    ((if ptr && elemName ≠ "" then elemName else name) = "" →
      afterLastDot typeStr ≠ "" →
      getPanicType (.typed ptr name elemName typeStr printed) =
        "Runtime.Panic." ++ afterLastDot typeStr) ∧
    ((if ptr && elemName ≠ "" then elemName else name) = "" →
      afterLastDot typeStr = "" →
      getPanicType (.typed ptr name elemName typeStr printed) = "Runtime.Panic") := by
  refine ⟨rfl, ?_, ?_, ?_⟩
  · intro h
    rw [getPanicType_typed, if_pos h]
  · intro h hs
    rw [getPanicType_typed, if_neg (not_not_intro h), if_pos hs]
  · intro h hs
    rw [getPanicType_typed, if_neg (not_not_intro h), if_neg (not_not_intro hs)]

/-- Witness for C5 (amended) at concrete panic values: a named type
(`string`, as in the repository's tests), the unnamed `[]string` type,
and the nil panic value. -/
theorem getPanicType_classification_witness :
    getPanicType (.typed false "string" "" "string" "panic message") =
      "Runtime.Panic.string" ∧
    getPanicType (.typed false "" "" "[]string" "[hey]") = "Runtime.Panic.[]string" ∧
    getPanicType .nilPanic = "Runtime.Panic" :=
  ⟨(getPanicType_classification false "string" "" "string" "panic message").2.1
      (by decide),
   (getPanicType_classification false "" "" "[]string" "[hey]").2.2.1 rfl (by decide),
   (getPanicType_classification false "" "" "" "").1⟩

/-- C9: `sendError` always performs exactly one failure POST per error
record; when marshalling the record itself fails, the fixed fallback
JSON body tagged `Runtime.MarshalError` is posted in its place, so a
serialization failure never suppresses the report. -/
theorem sendError_single_post_fallback (base : String) (inv : Invocation)
    (arg : SendErrArg) (marshalErrResp : ErrorResponse → Except String String)
    (postStatus : Option Nat) (drainOk : Bool) :
    (sendError base inv arg marshalErrResp postStatus drainOk).requests.length = 1 ∧
    (∀ m, marshalErrResp arg.toErrResp = .error m →
      (sendError base inv arg marshalErrResp postStatus drainOk).requests =
        [(base ++ inv.requestID ++ "/error", fallbackErrorJSON m)]) := by
  constructor
  · simp [sendError]
  · intro m hm
    simp [sendError, hm]

/-- Witness for C9: a concrete record whose marshalling fails still
produces exactly one POST, carrying the fallback body. -/
theorem sendError_single_post_fallback_witness :
    (sendError "http://127.0.0.1/2018-06-01/runtime/invocation/"
        { requestID := "req-1", payload := "", headers := {} }
        (.resp { errType := "Runtime.HandlerError", Message := "m", StackTrace := [] })
        (fun _ => .error "unsupported type") (some 202) true).requests =
      [("http://127.0.0.1/2018-06-01/runtime/invocation/req-1/error",
        fallbackErrorJSON "unsupported type")] :=
  (sendError_single_post_fallback _ _ _ _ _ _).2 "unsupported type" rfl

/-- C4: an input payload that fails to decode yields an error record
tagged exactly `Runtime.UnmarshalError` with an empty stack-frame
sequence, and the handler is never invoked on that pass. -/
theorem unmarshal_failure_record {TIn TOut : Type}
    (unmarshalIn : String → Except String TIn)
    (marshalOut : TOut → Except String String)
    (payload : String) (handler : TIn → HandlerRes TOut) (m : String)
    (hdec : unmarshalIn payload = .error m) :
    (callHandler unmarshalIn marshalOut payload handler).errorResp =
      some { errType := "Runtime.UnmarshalError"
             Message := "failed to unmarshal input: " ++ m
             StackTrace := [] } ∧
    (callHandler unmarshalIn marshalOut payload handler).handlerInvoked = false := by
  constructor <;> simp [callHandler, hdec]

/-- Witness for C4: the repository's own test input `not json` with a
decoder that rejects it. -/
theorem unmarshal_failure_record_witness :
    (@callHandler Unit Unit
        (fun _ => .error "invalid character") (fun _ => .ok "null")
        "not json" (fun _ => .ok ())).errorResp =
      some { errType := "Runtime.UnmarshalError"
             Message := "failed to unmarshal input: invalid character"
             StackTrace := [] } ∧
    (@callHandler Unit Unit
        (fun _ => .error "invalid character") (fun _ => .ok "null")
        "not json" (fun _ => .ok ())).handlerInvoked = false :=
  unmarshal_failure_record _ _ _ _ "invalid character" rfl

/-- A 200 response turns into the invocation carrying the request-id
header, the body as payload, and all headers. -/
theorem runtimeClient_next_200 (hdrs : HTTPHeaders) (body : String) :
    runtimeClient.next (.resp 200 hdrs body) true =
      .ok { requestID := hdrs.requestID, payload := body, headers := hdrs } := rfl

/-- With the error POST accepted (202), `sendError` returns the panic
sentinel exactly when the record carries stack frames, and nil
otherwise. -/
theorem sendError_outcome_202 (base : String) (inv : Invocation)
    (arg : SendErrArg) (marshalErrResp : ErrorResponse → Except String String)
    (drainOk : Bool) :
    (sendError base inv arg marshalErrResp (some 202) drainOk).outcome =
      (if arg.toErrResp.StackTrace.length > 0 then
        Except.error PassFatal.handlerPanicked
      else Except.ok ()) := by
  simp [sendError, runtimeClient.post]

/-- `sendError` reports exactly the record it was handed (classifying a
plain Go error first). -/
theorem sendError_errResp (base : String) (inv : Invocation)
    (arg : SendErrArg) (marshalErrResp : ErrorResponse → Except String String)
    (postStatus : Option Nat) (drainOk : Bool) :
    (sendError base inv arg marshalErrResp postStatus drainOk).errResp =
      arg.toErrResp := rfl

/-- `sendError` POSTs once, to the per-request `/error` URL. -/
theorem sendError_requests_url (base : String) (inv : Invocation)
    (arg : SendErrArg) (marshalErrResp : ErrorResponse → Except String String)
    (postStatus : Option Nat) (drainOk : Bool) :
    ∃ b, (sendError base inv arg marshalErrResp postStatus drainOk).requests =
      [(base ++ inv.requestID ++ "/error", b)] :=
  ⟨_, rfl⟩

/-- C7: an invocation whose deadline metadata fails to parse as epoch
milliseconds is reported through the failure POST against the
invocation's request identifier, and the pass completes non-fatally
(nil return, so the outer loop fetches the next invocation) when the
control plane accepts the report. -/
theorem deadline_parse_failure_reported {TIn TOut : Type} (base : String)
    (env : PassEnv TIn TOut) (hdrs : HTTPHeaders) (body : String) (m : String)
    (hnext : env.nextDo = .resp 200 hdrs body) (hread : env.nextReadOk = true)
    (hparse : goParseInt64 hdrs.deadlineMS = .error m)
    (hpost : env.errorPostStatus = some 202) :
    (handleInvocation base env).outcome = .ok () ∧
    ∃ b, (handleInvocation base env).errorRequests =
      [(base ++ hdrs.requestID ++ "/error", b)] := by
  have hpd : parseDeadline hdrs.deadlineMS =
      .error (wrapGoError ("failed to parse deadline: " ++ m)) := by
    simp [parseDeadline, hparse]
  simp only [handleInvocation, hnext, hread, runtimeClient_next_200, hpd, hpost]
  refine ⟨?_, ?_⟩
  · rw [sendError_outcome_202]
    simp [SendErrArg.toErrResp, newErrorResponse]
  · exact sendError_requests_url _ _ _ _ _ _

/-- Witness for C7: the repository test's invalid deadline header
`not-a-number` is reported to `/req-1/error` and the pass returns nil. -/
theorem deadline_parse_failure_reported_witness :
    (@handleInvocation Unit Unit
        "http://127.0.0.1/2018-06-01/runtime/invocation/"
        { nextDo := .resp 200 { requestID := "req-1", deadlineMS := "not-a-number" } ""
          unmarshalCognito := fun _ => .ok {}
          unmarshalClientCtx := fun _ => .ok {}
          unmarshalIn := fun _ => .ok ()
          handler := fun _ _ => .ok ()
          marshalOut := fun _ => .ok "null"
          marshalErrResp := fun _ => .ok "" }).outcome = .ok () ∧
    ∃ b, (@handleInvocation Unit Unit
        "http://127.0.0.1/2018-06-01/runtime/invocation/"
        { nextDo := .resp 200 { requestID := "req-1", deadlineMS := "not-a-number" } ""
          unmarshalCognito := fun _ => .ok {}
          unmarshalClientCtx := fun _ => .ok {}
          unmarshalIn := fun _ => .ok ()
          handler := fun _ _ => .ok ()
          marshalOut := fun _ => .ok "null"
          marshalErrResp := fun _ => .ok "" }).errorRequests =
      [("http://127.0.0.1/2018-06-01/runtime/invocation/req-1/error", b)] :=
  deadline_parse_failure_reported _ _
    { requestID := "req-1", deadlineMS := "not-a-number" } "" _ rfl rfl rfl rfl

/-- The pipeline environment for the C6 counterexample: tracing enabled,
trace header present, deadline header that fails to parse. -/
def c6Env : PassEnv Unit Unit :=
  { nextDo := .resp 200
      { requestID := "req-1", deadlineMS := "not-a-number"
        traceID := "Root=1-5e9c5b5f-1234567890abcdef" } ""
    enableTraceID := true
    unmarshalCognito := fun _ => .ok {}
    unmarshalClientCtx := fun _ => .ok {}
    unmarshalIn := fun _ => .ok ()
    handler := fun _ _ => .ok ()
    marshalOut := fun _ => .ok "null"
    marshalErrResp := fun _ => .ok "" }

/-- C6 counterexample: the claim places trace propagation (its step 4)
after deadline derivation (its step 2) and concludes that a deadline
parse failure keeps the trace token out of the process-wide slot. In the
code the `enableTraceID` block runs immediately after the fetch, BEFORE
`parseDeadline`: on an invocation with trace token
`Root=1-5e9c5b5f-1234567890abcdef` and unparsable deadline
`not-a-number`, the pass executes trace propagation before deadline
parsing and leaves the token in the process-wide slot (initially empty),
contradicting both parts of the claim. -/
theorem trace_before_deadline_counterexample :
    (handleInvocation "http://127.0.0.1/2018-06-01/runtime/invocation/" c6Env).traceSlot =
      some "Root=1-5e9c5b5f-1234567890abcdef" ∧
    (handleInvocation "http://127.0.0.1/2018-06-01/runtime/invocation/" c6Env).steps =
      [Step.fetch, Step.tracePropagation, Step.deadlineParse, Step.dispatchError] ∧
    c6Env.initialTraceSlot = none :=
  ⟨rfl, rfl, rfl⟩

/-- C6 (amended): within one pipeline pass the code's actual order is
fetch, then trace propagation (when enabled), then deadline derivation,
then context assembly; consequently, on an invocation whose deadline
metadata fails to parse, context assembly is never reached but the trace
token has already been surfaced into the process-wide trace slot
whenever tracing is enabled and the token is present. -/
theorem pass_step_order {TIn TOut : Type} (base : String)
    (env : PassEnv TIn TOut) (hdrs : HTTPHeaders) (body : String)
    (hnext : env.nextDo = .resp 200 hdrs body) (hread : env.nextReadOk = true) :
    (∃ rest, (handleInvocation base env).steps =
      Step.fetch :: ((if env.enableTraceID then [Step.tracePropagation] else []) ++
        Step.deadlineParse :: rest)) ∧
    (∀ m, goParseInt64 hdrs.deadlineMS = .error m →
      Step.contextAssembly ∉ (handleInvocation base env).steps ∧
      (handleInvocation base env).traceSlot =
        (if env.enableTraceID && hdrs.traceID ≠ "" then some hdrs.traceID
         else env.initialTraceSlot)) := by
  simp only [handleInvocation, hnext, hread, runtimeClient_next_200]
  constructor
  · rcases hpd : parseDeadline hdrs.deadlineMS with e | d
    · exact ⟨[Step.dispatchError], by simp [hpd]⟩
    · rcases hcog : (if hdrs.cognitoIdentity ≠ "" then
          env.unmarshalCognito hdrs.cognitoIdentity else .ok {}) with m | idn
      · exact ⟨[Step.contextAssembly, Step.dispatchError], by simp [hpd, hcog]⟩
      · rcases hcl : (if hdrs.clientContext ≠ "" then
            env.unmarshalClientCtx hdrs.clientContext else .ok {}) with m | cc
        · exact ⟨[Step.contextAssembly, Step.dispatchError], by simp [hpd, hcog, hcl]⟩
        · rcases hcall : (callHandler env.unmarshalIn env.marshalOut body
              (env.handler (NewContext (.withDeadline .background d)
                { AwsRequestID := hdrs.requestID
                  InvokedFunctionArn := hdrs.functionARN
                  Identity := idn, ClientContext := cc }))).errorResp with _ | rec
          · refine ⟨[Step.contextAssembly, Step.invokeHandler, Step.dispatchSuccess],
              by simp [hpd, hcog, hcl, hcall]⟩
          · refine ⟨[Step.contextAssembly, Step.invokeHandler, Step.dispatchError],
              by simp [hpd, hcog, hcl, hcall]⟩
  · intro m hm
    have hpd : parseDeadline hdrs.deadlineMS =
        .error (wrapGoError ("failed to parse deadline: " ++ m)) := by
      simp [parseDeadline, hm]
    refine ⟨?_, ?_⟩ <;> simp [hpd]

/-- Witness for C6 (amended), instantiated at the counterexample
environment. -/
theorem pass_step_order_witness :
    (∃ rest, (handleInvocation "http://127.0.0.1/2018-06-01/runtime/invocation/"
        c6Env).steps =
      Step.fetch :: ((if c6Env.enableTraceID then [Step.tracePropagation] else []) ++
        Step.deadlineParse :: rest)) ∧
    (∀ m, goParseInt64 "not-a-number" = .error m →
      Step.contextAssembly ∉ (handleInvocation
        "http://127.0.0.1/2018-06-01/runtime/invocation/" c6Env).steps ∧
      (handleInvocation "http://127.0.0.1/2018-06-01/runtime/invocation/"
        c6Env).traceSlot =
        (if c6Env.enableTraceID && "Root=1-5e9c5b5f-1234567890abcdef" ≠ "" then
          some "Root=1-5e9c5b5f-1234567890abcdef"
         else c6Env.initialTraceSlot)) :=
  pass_step_order "http://127.0.0.1/2018-06-01/runtime/invocation/" c6Env
    { requestID := "req-1", deadlineMS := "not-a-number"
      traceID := "Root=1-5e9c5b5f-1234567890abcdef" } "" rfl rfl

/-- C1: for the error record reported by one pipeline pass, the record
carries a non-empty stack-frame sequence exactly when it originated from
a contained handler panic; the pass returns the fatal `errHandlerPanicked`
sentinel to the outer loop exactly when the reported record's stack-frame
sequence is non-empty; and a pass whose record has an empty stack-frame
sequence (handler-returned failure, decode failure, deadline-parse
failure, encode failure) returns nil so the loop fetches the next
invocation. Hypotheses: the fetch succeeded, the control plane accepts
the failure report (202), and a recovered panic sees the goroutine stack
beneath the skipped pipeline frames (always true for a panic raised
inside the handler, where at least `gopanic`, the handler frames,
`callHandler`, `handleInvocation`, `Start`, `main` and `goexit` remain). -/
theorem pass_stackTrace_iff_panic {TIn TOut : Type} (base : String)
    (env : PassEnv TIn TOut) (hdrs : HTTPHeaders) (body : String)
    (record : ErrorResponse)
    (hnext : env.nextDo = .resp 200 hdrs body) (hread : env.nextReadOk = true)
    (hpost : env.errorPostStatus = some 202)
    (hdeep : ∀ ctx input v callers, env.handler ctx input = .panics v callers →
      framesToSkip < callers.length)
    (hrec : (handleInvocation base env).reported = some record) :
    (record.StackTrace ≠ [] ↔ (handleInvocation base env).panicOrigin = true) ∧
    ((handleInvocation base env).outcome = .error .handlerPanicked ↔
      record.StackTrace ≠ []) ∧
    (record.StackTrace = [] → (handleInvocation base env).outcome = .ok ()) := by
  simp only [handleInvocation, hnext, hread, runtimeClient_next_200] at hrec ⊢
  rcases hpd : parseDeadline hdrs.deadlineMS with e | d
  · simp only [hpd, hpost] at hrec ⊢
    simp only [sendError_errResp, Option.some.injEq] at hrec
    subst hrec
    rw [sendError_outcome_202]
    simp [SendErrArg.toErrResp, newErrorResponse]
  · rcases hcog : (if hdrs.cognitoIdentity ≠ "" then
        env.unmarshalCognito hdrs.cognitoIdentity else .ok {}) with m | idn
    · simp only [hpd, hcog, hpost] at hrec ⊢
      simp only [sendError_errResp, Option.some.injEq] at hrec
      subst hrec
      rw [sendError_outcome_202]
      simp [SendErrArg.toErrResp, newErrorResponse]
    · rcases hcl : (if hdrs.clientContext ≠ "" then
          env.unmarshalClientCtx hdrs.clientContext else .ok {}) with m | cc
      · simp only [hpd, hcog, hcl, hpost] at hrec ⊢
        simp only [sendError_errResp, Option.some.injEq] at hrec
        subst hrec
        rw [sendError_outcome_202]
        simp [SendErrArg.toErrResp, newErrorResponse]
      · rcases hin : env.unmarshalIn body with m | input
        · simp only [hpd, hcog, hcl, hpost, callHandler, hin] at hrec ⊢
          simp only [sendError_errResp, Option.some.injEq] at hrec
          subst hrec
          rw [sendError_outcome_202]
          simp [SendErrArg.toErrResp]
        · rcases hh : env.handler (NewContext (.withDeadline .background d)
              { AwsRequestID := hdrs.requestID
                InvokedFunctionArn := hdrs.functionARN
                Identity := idn, ClientContext := cc }) input with out | e | ⟨v, callers⟩
          · rcases hm : env.marshalOut out with m | bytes
            · simp only [hpd, hcog, hcl, hpost, callHandler, hin, hh, hm] at hrec ⊢
              simp only [sendError_errResp, Option.some.injEq] at hrec
              subst hrec
              rw [sendError_outcome_202]
              simp [SendErrArg.toErrResp]
            · simp only [hpd, hcog, hcl, callHandler, hin, hh, hm] at hrec
              exact absurd hrec (by simp)
          · simp only [hpd, hcog, hcl, hpost, callHandler, hin, hh] at hrec ⊢
            simp only [sendError_errResp, Option.some.injEq] at hrec
            subst hrec
            rw [sendError_outcome_202]
            simp [SendErrArg.toErrResp, newErrorResponse]
          · have hlen : framesToSkip < callers.length := hdeep _ _ _ _ hh
            have hne : captureStackTrace callers ≠ [] :=
              (captureStackTrace_ne_nil_iff callers).mpr hlen
            simp only [hpd, hcog, hcl, hpost, callHandler, hin, hh] at hrec ⊢
            simp only [sendError_errResp, Option.some.injEq] at hrec
            subst hrec
            rw [sendError_outcome_202]
            have hpos : 0 < (captureStackTrace callers).length :=
              List.length_pos.mpr hne
            simp [SendErrArg.toErrResp, newPanicResponse, hne, hpos]

/-- The goroutine stack at recovery time for the C1 witness: the capture
machinery's own frames followed by the panicking handler's frames. -/
def c1Stack : List RawFrame :=
  [{ file := "voker/errors.go", line := 160
     function := "github.com/hotsock/voker.captureStackTrace" },
   { file := "voker/errors.go", line := 101
     function := "github.com/hotsock/voker.newPanicResponse" },
   { file := "voker/voker.go", line := 186
     function := "github.com/hotsock/voker.callHandler[...].func1" },
   { file := "/usr/local/go/src/runtime/panic.go", line := 783
     function := "runtime.gopanic" },
   { file := "main.go", line := 23, function := "main.handler" },
   { file := "voker/voker.go", line := 198
     function := "github.com/hotsock/voker.callHandler[...]" }]

/-- The pipeline environment for the C1 witness: the repository test's
handler that panics with the string `oh no!`. -/
def c1Env : PassEnv Unit Unit :=
  { nextDo := .resp 200
      { requestID := "test-request-id", deadlineMS := "999999999999999" } "payload"
    unmarshalCognito := fun _ => .ok {}
    unmarshalClientCtx := fun _ => .ok {}
    unmarshalIn := fun _ => .ok ()
    handler := fun _ _ => .panics (.typed false "string" "" "string" "oh no!") c1Stack
    marshalOut := fun _ => .ok "null"
    marshalErrResp := fun _ => .ok "" }

/-- Witness for C1 at the panicking-handler environment: the reported
record carries stack frames and the pass ends with the
`errHandlerPanicked` sentinel. -/
theorem pass_stackTrace_iff_panic_witness :
    ((newPanicResponse (.typed false "string" "" "string" "oh no!") c1Stack).StackTrace ≠ [] ↔
      (handleInvocation "http://127.0.0.1/2018-06-01/runtime/invocation/"
        c1Env).panicOrigin = true) ∧
    ((handleInvocation "http://127.0.0.1/2018-06-01/runtime/invocation/"
        c1Env).outcome = .error .handlerPanicked ↔
      (newPanicResponse (.typed false "string" "" "string" "oh no!") c1Stack).StackTrace ≠ []) ∧
    ((newPanicResponse (.typed false "string" "" "string" "oh no!") c1Stack).StackTrace = [] →
      (handleInvocation "http://127.0.0.1/2018-06-01/runtime/invocation/"
        c1Env).outcome = .ok ()) :=
  pass_stackTrace_iff_panic "http://127.0.0.1/2018-06-01/runtime/invocation/"
    c1Env { requestID := "test-request-id", deadlineMS := "999999999999999" }
    "payload" (newPanicResponse (.typed false "string" "" "string" "oh no!") c1Stack)
    rfl rfl rfl
    (fun _ _ v callers h => by
      injection h with h1 h2
      subst h2
      decide)
    rfl

/-- Temporal precedence between shutdown events: the done signal precedes
everything, everything precedes the wait-return, and hooks precede each
other in registration order. -/
def shutdownOrder : ShutdownEvent → ShutdownEvent → Prop
  | .closeDone, _ => True
  | _, .waitReturn => True
  | .sigtermHook i _, .sigtermHook j _ => i < j
  | _, _ => False

/-- Every event the shutdown hook loop emits is a hook invocation with
the loop's context deadline and a registration index at or past the
loop's starting index. -/
theorem mem_sigtermHookEvents {exts : List InternalExtension} {i0 dl : Nat}
    {e : ShutdownEvent} (h : e ∈ sigtermHookEvents exts i0 dl) :
    ∃ j, i0 ≤ j ∧ e = .sigtermHook j dl := by
  induction exts generalizing i0 with
  | nil => simp [sigtermHookEvents] at h
  | cons ext rest ih =>
    simp only [sigtermHookEvents] at h
    rcases List.mem_append.mp h with h1 | h2
    · by_cases hs : ext.hasOnSIGTERM
      · simp [hs] at h1
        exact ⟨i0, le_refl _, h1⟩
      · simp [hs] at h1
    · obtain ⟨j, hj, he⟩ := ih h2
      exact ⟨j, by omega, he⟩

/-- Each extension that supplies a SIGTERM hook contributes exactly one
hook event to the shutdown hook loop. -/
theorem count_sigtermHookEvents (exts : List InternalExtension) :
    ∀ (i0 dl : Nat) (i : Nat) (h : i < exts.length),
      (exts.get ⟨i, h⟩).hasOnSIGTERM = true →
      (sigtermHookEvents exts i0 dl).count (.sigtermHook (i0 + i) dl) = 1 := by
  induction exts with
  | nil => intro i0 dl i h; simp at h
  | cons ext rest ih =>
    intro i0 dl i h hs
    cases i with
    | zero =>
      have hhead : ext.hasOnSIGTERM = true := hs
      have htail : (sigtermHookEvents rest (i0 + 1) dl).count
          (ShutdownEvent.sigtermHook (i0 + 0) dl) = 0 := by
        rw [List.count_eq_zero]
        intro hmem
        obtain ⟨j, hj, he⟩ := mem_sigtermHookEvents hmem
        injection he with h1 h2
        omega
      simp only [sigtermHookEvents, hhead, if_pos, List.count_append, htail]
      simp
    | succ k =>
      have hs' : (rest.get ⟨k, by simpa using h⟩).hasOnSIGTERM = true := hs
      have hhead : (if ext.hasOnSIGTERM then
          [ShutdownEvent.sigtermHook i0 dl] else []).count
          (ShutdownEvent.sigtermHook (i0 + (k + 1)) dl) = 0 := by
        by_cases hb : ext.hasOnSIGTERM <;>
          simp [hb, List.count_eq_zero]
      have htail := ih (i0 + 1) dl k (by simpa using h) hs'
      have harith : i0 + 1 + k = i0 + (k + 1) := by omega
      rw [harith] at htail
      simp only [sigtermHookEvents, List.count_append, hhead, htail]

/-- The shutdown hook loop emits hooks in registration order. -/
theorem pairwise_sigtermHookEvents (exts : List InternalExtension) (i0 dl : Nat) :
    (sigtermHookEvents exts i0 dl).Pairwise shutdownOrder := by
  induction exts generalizing i0 with
  | nil => simp [sigtermHookEvents]
  | cons ext rest ih =>
    simp only [sigtermHookEvents]
    rw [List.pairwise_append]
    refine ⟨?_, ih (i0 + 1), ?_⟩
    · by_cases hs : ext.hasOnSIGTERM <;> simp [hs]
    · intro a ha b hb
      by_cases hs : ext.hasOnSIGTERM
      · simp [hs] at ha
        obtain ⟨j, hj, he⟩ := mem_sigtermHookEvents hb
        subst ha
        subst he
        show i0 < j
        omega
      · simp [hs] at ha

/-- C8: raising the termination signal makes the manager's shutdown
invoke the termination hook of every registered extension that supplies
one exactly once, each with a context whose deadline is at most 500ms
after the signal; in the shutdown trace (list position = temporal order)
the first event is raising the shared done signal, the last event is the
return after `wg.Wait()`, and events are pairwise ordered so that every
hook runs strictly after the done signal, strictly before the return,
and hooks run sequentially in registration order. -/
theorem shutdown_hooks_ordered (exts : List InternalExtension) (sigTime : Nat) :
    (∀ i (h : i < exts.length), (exts.get ⟨i, h⟩).hasOnSIGTERM = true →
      (shutdownTrace exts sigTime).count
        (.sigtermHook i (sigTime + sigtermContextDeadline)) = 1) ∧
    (∀ j d, ShutdownEvent.sigtermHook j d ∈ shutdownTrace exts sigTime →
      d ≤ sigTime + sigtermContextDeadline) ∧
    (shutdownTrace exts sigTime).head? = some ShutdownEvent.closeDone ∧
    (shutdownTrace exts sigTime).getLast? = some ShutdownEvent.waitReturn ∧
    (shutdownTrace exts sigTime).Pairwise shutdownOrder := by
  refine ⟨?_, ?_, rfl, ?_, ?_⟩
  · intro i h hs
    unfold shutdownTrace
    rw [List.count_append, List.count_cons_of_ne (by simp)]
    have hmain := count_sigtermHookEvents exts 0 (sigTime + sigtermContextDeadline) i h hs
    rw [Nat.zero_add] at hmain
    rw [hmain]
    simp
  · intro j d hmem
    unfold shutdownTrace at hmem
    rcases List.mem_cons.mp hmem with h0 | hmem
    · exact absurd h0 (by simp)
    · rcases List.mem_append.mp hmem with hH | hR
      · obtain ⟨k, hk, he⟩ := mem_sigtermHookEvents hH
        injection he with h1 h2
        omega
      · simp at hR
  · show (ShutdownEvent.closeDone ::
      (sigtermHookEvents exts 0 (sigTime + sigtermContextDeadline) ++
        [ShutdownEvent.waitReturn])).getLast? = some ShutdownEvent.waitReturn
    rw [← List.cons_append, List.getLast?_append]
    rfl
  · unfold shutdownTrace
    rw [List.pairwise_append]
    refine ⟨?_, List.pairwise_singleton _ _, ?_⟩
    · rw [List.pairwise_cons]
      constructor
      · intro b _
        cases b <;> exact trivial
      · exact pairwise_sigtermHookEvents _ _ _
    · intro a ha b hb
      simp at hb
      subst hb
      rcases List.mem_cons.mp ha with h0 | hH
      · subst h0
        exact trivial
      · obtain ⟨j, hj, he⟩ := mem_sigtermHookEvents hH
        subst he
        exact trivial

/-- Witness for C8: a single registered extension with a SIGTERM hook,
signal at time 1000, is invoked exactly once with deadline 1500. -/
theorem shutdown_hooks_ordered_witness :
    (shutdownTrace [{ name := "TestExtension", hasOnSIGTERM := true }] 1000).count
      (.sigtermHook 0 (1000 + sigtermContextDeadline)) = 1 :=
  (shutdown_hooks_ordered [{ name := "TestExtension", hasOnSIGTERM := true }]
    1000).1 0 (by decide) rfl

end Voker
